import Mathlib

/-!
Verification of the teaching-assistant evaluation tracker.

The definitions below are a shallow embedding of the repository sources:
client discrepancy engine and scheduler from
src/client/src/components/Evaluations.tsx, the Class model from
src/server/src/models/Class.ts, and the CPF helpers and routes from the
server entry file (src/unnamed/part_000).  Parts of the repository that are
referenced but whose files are not present (Student.ts, Enrollment.ts,
StudentSet.ts) are modelled from the specification and marked as such.
-/

namespace TeachingAssistant

/-! ## Discrepancy engine (src/client/src/components/Evaluations.tsx) -/

/-- Grade hierarchy table from compareGoal (Evaluations.tsx line 147):
MA maps to 3, MPA to 2, MANA to 1; every other string is absent.
All three stored values are truthy in JS, so the JS truthiness guard
`g && hierarchy[g]` yields exactly this partial map. -/
def hierarchy (g : String) : Option Nat :=
  if g = "MA" then some 3
  else if g = "MPA" then some 2
  else if g = "MANA" then some 1
  else none

/-- compareGoal from Evaluations.tsx lines 145-156: true iff both grades are
in the hierarchy and the teacher rank is strictly below the self rank. -/
def compareGoal (teacherEval selfEval : String) : Bool :=
  match hierarchy teacherEval, hierarchy selfEval with
  | some t, some s => decide (t < s)
  | _, _ => false

/-- The three valid grade levels in increasing order (MANA < MPA < MA),
as listed by the rubric. -/
def gradeLevels : List String := ["MANA", "MPA", "MA"]

/-- Record lookup with the `|| ""` default used throughout Evaluations.tsx:
the first binding for the goal, or the empty string when absent. -/
def lookupGrade (m : List (String × String)) (goal : String) : String :=
  (((m.find? fun p => p.1 == goal).map Prod.snd)).getD ""

/-- Loop body of getStudentDiscrepancyInfo (Evaluations.tsx lines 166-174):
when at least one side has a non-empty grade the total is bumped, and the
discrepant counter is bumped when compareGoal holds. -/
def discStep (te se : List (String × String))
    (acc : Nat × Nat) (goal : String) : Nat × Nat :=
  let teacherEval := lookupGrade te goal
  let selfEval := lookupGrade se goal
  if teacherEval ≠ "" ∨ selfEval ≠ "" then
    (acc.1 + 1, if compareGoal teacherEval selfEval then acc.2 + 1 else acc.2)
  else acc

/-- The counting loop of getStudentDiscrepancyInfo (Evaluations.tsx
lines 163-174): walks the goal list accumulating (total, discrepant). -/
def discrepancyCounts (goals : List String)
    (te se : List (String × String)) : Nat × Nat :=
  goals.foldl (discStep te se) (0, 0)

/-- Result record of getStudentDiscrepancyInfo. -/
structure DiscrepancyInfo where
  percentage : Nat
  highlight : Bool
deriving DecidableEq

/-- Exact integer form of `Math.round ((discrepant / total) * 100)` for
natural inputs with `total > 0`: floor of `100 * discrepant / total + 1/2`,
written with natural division. -/
def round100 (discrepant total : Nat) : Nat :=
  (200 * discrepant + total) / (2 * total)

/-- getStudentDiscrepancyInfo from Evaluations.tsx lines 158-182. -/
def getStudentDiscrepancyInfo (goals : List String)
    (te se : List (String × String)) : DiscrepancyInfo :=
  let counts := discrepancyCounts goals te se
  let percentage := if counts.1 = 0 then 0 else round100 counts.2 counts.1
  { percentage := percentage, highlight := percentage > 25 }

/-- The six rubric goals (EVALUATION_GOALS, Evaluations.tsx lines 36-43). -/
def EVALUATION_GOALS : List String :=
  ["Requirements", "Configuration Management", "Project Management",
   "Design", "Tests", "Refactoring"]

/-! ## Scheduler display (Evaluations.tsx lines 95-107) -/

/-- Total delay in milliseconds computed by the scheduler effect:
`((d * 24 + h) * 60 + m) * 60 * 1000`. -/
def totalMs (d h m : Nat) : Nat :=
  ((d * 24 + h) * 60 + m) * 60 * 1000

/-- The scheduled target instant: now plus the delay when the delay is
positive, otherwise no date (the effect stores null). -/
def scheduledTarget (now d h m : Nat) : Option Nat :=
  if 0 < totalMs d h m then some (now + totalMs d h m) else none

/-! ## Server data model

Class.ts is under src/; Student.ts, Enrollment.ts and StudentSet.ts are
referenced by it but not present, so those parts are modelled from the
specification (section 3 of the spec). -/

/-- Modelled from the spec: a Student is a record of name, cpf (the identity
key) and email (Student.ts is not under src/). The getCPF accessor of the
TypeScript class is field access here. -/
structure Student where
  name : String
  cpf : String
  email : String
deriving DecidableEq

/-- Modelled from the spec: an Enrollment binds a student to a class and
holds two goal-keyed evaluation maps, teacher evaluations and
self evaluations (Enrollment.ts is not under src/). -/
structure Enrollment where
  student : Student
  evaluations : List (String × String)
  selfEvaluations : List (String × String)
deriving DecidableEq

/-- Modelled from the spec: the Enrollment constructor used by
Class.addEnrollment creates an enrollment with empty evaluation maps. -/
def mkEnrollment (s : Student) : Enrollment :=
  { student := s, evaluations := [], selfEvaluations := [] }

/-- The Class model from src/server/src/models/Class.ts: topic, semester,
year and an ordered enrollment list. -/
structure Class where
  topic : String
  semester : Int
  year : Int
  enrollments : List Enrollment
deriving DecidableEq

/-- findEnrollmentByStudentCPF from Class.ts lines 78-82: first enrollment
whose stored student CPF is literally equal to the given string. -/
def findEnrollmentByStudentCPF (c : Class) (studentCPF : String) :
    Option Enrollment :=
  c.enrollments.find? fun e => e.student.cpf == studentCPF

/-- addEnrollment from Class.ts lines 53-63: reject when the student CPF is
already enrolled, otherwise push a fresh enrollment at the end. -/
def addEnrollment (c : Class) (s : Student) :
    Except String (Class × Enrollment) :=
  match findEnrollmentByStudentCPF c s.cpf with
  | some _ => .error "Student is already enrolled in this class"
  | none =>
      let e := mkEnrollment s
      .ok ({ c with enrollments := c.enrollments ++ [e] }, e)

/-- removeEnrollment from Class.ts lines 65-76: find the index of the first
matching enrollment; when none return false and leave the list alone,
otherwise splice that index out and return true. -/
def removeEnrollment (c : Class) (studentCPF : String) : Bool × Class :=
  match c.enrollments.findIdx? (fun e => e.student.cpf == studentCPF) with
  | none => (false, c)
  | some i => (true, { c with enrollments := c.enrollments.eraseIdx i })

/-- getClassId from Class.ts lines 35-37. -/
def getClassId (c : Class) : String :=
  c.topic ++ "-" ++ toString c.year ++ "-" ++ toString c.semester

/-- The invariant of claim C3: at most one enrollment per distinct student
CPF inside a class enrollment list. -/
def uniqueCPFs (l : List Enrollment) : Prop :=
  (l.map fun e => e.student.cpf).Nodup

instance (l : List Enrollment) : Decidable (uniqueCPFs l) :=
  List.nodupDecidable _

/-! ## JSON forms (Class.toJSON and Class.fromJSON) -/

/-- Modelled from the spec: the JSON form of a Student. -/
structure StudentJSON where
  name : String
  cpf : String
  email : String
deriving DecidableEq

/-- Modelled from the spec: the JSON form of an Enrollment, carrying the
serialized student and the two evaluation maps. -/
structure EnrollmentJSON where
  student : StudentJSON
  evaluations : List (String × String)
  selfEvaluations : List (String × String)
deriving DecidableEq

/-- The JSON form of a Class (Class.ts lines 90-98). -/
structure ClassJSON where
  id : String
  topic : String
  semester : Int
  year : Int
  enrollments : List EnrollmentJSON
deriving DecidableEq

/-- Modelled from the spec: Student.toJSON serializes the three fields. -/
def Student.toJSON (s : Student) : StudentJSON :=
  { name := s.name, cpf := s.cpf, email := s.email }

/-- Modelled from the spec: Enrollment.toJSON serializes the student and
both evaluation maps. -/
def Enrollment.toJSON (e : Enrollment) : EnrollmentJSON :=
  { student := e.student.toJSON,
    evaluations := e.evaluations,
    selfEvaluations := e.selfEvaluations }

/-- Modelled from the spec: Enrollment.fromJSON rebuilds an enrollment from
its JSON data and an already-resolved Student object. -/
def Enrollment.fromJSON (data : EnrollmentJSON) (s : Student) : Enrollment :=
  { student := s,
    evaluations := data.evaluations,
    selfEvaluations := data.selfEvaluations }

/-- Class.toJSON from Class.ts lines 90-98. -/
def Class.toJSON (c : Class) : ClassJSON :=
  { id := getClassId c,
    topic := c.topic,
    semester := c.semester,
    year := c.year,
    enrollments := c.enrollments.map Enrollment.toJSON }

/-- The enrollment-rebuilding loop of Class.fromJSON (Class.ts
lines 102-110): for each JSON enrollment, resolve the student by the first
CPF match in the given student list, failing when there is none. -/
def buildEnrollments (allStudents : List Student) :
    List EnrollmentJSON → Except String (List Enrollment)
  | [] => .ok []
  | ed :: rest =>
      match allStudents.find? (fun s => s.cpf == ed.student.cpf) with
      | none => .error ("Student with CPF " ++ ed.student.cpf ++ " not found")
      | some s =>
          (buildEnrollments allStudents rest).map
            fun enrs => Enrollment.fromJSON ed s :: enrs

/-- Class.fromJSON from Class.ts lines 101-113. -/
def Class.fromJSON (data : ClassJSON) (allStudents : List Student) :
    Except String Class :=
  (buildEnrollments allStudents data.enrollments).map fun enrs =>
    { topic := data.topic, semester := data.semester,
      year := data.year, enrollments := enrs }

/-! ## CPF normalization and student-store routes (src/unnamed/part_000) -/

/-- cleanCPF from part_000 lines 88-90: drop every dot and dash from the
CPF string. -/
def cleanCPF (cpf : String) : String :=
  String.mk (cpf.data.filter fun ch => !(ch == '.' || ch == '-'))

/-- Modelled from the spec: StudentSet.findStudentByCPF looks a student up
by exact CPF key (StudentSet.ts is not under src/). -/
def findStudentByCPF (store : List Student) (cpf : String) : Option Student :=
  store.find? fun s => s.cpf == cpf

/-- GET /api/students/:cpf from part_000 lines 199-214: clean the CPF, then
look the student up in the store. DELETE /api/students/:cpf
(lines 143-159) cleans the CPF the same way before removing. -/
def getStudentByCpfRoute (store : List Student) (cpf : String) :
    Option Student :=
  findStudentByCPF store (cleanCPF cpf)

/-! ## Enrollment-level evaluation recording -/

/-- Kind of an evaluation record: teacher-assigned or self-assigned. -/
inductive EvalKind where
  | teacher
  | selfEval
deriving DecidableEq

/-- The three valid grade levels accepted by evaluation updates. -/
def validGrades : List String := ["MANA", "MPA", "MA"]

/-- Read the map of the given kind from an enrollment. -/
def mapOf (e : Enrollment) (kind : EvalKind) : List (String × String) :=
  match kind with
  | .teacher => e.evaluations
  | .selfEval => e.selfEvaluations

/-- Replace the map of the given kind in an enrollment. -/
def withMap (e : Enrollment) (kind : EvalKind)
    (m : List (String × String)) : Enrollment :=
  match kind with
  | .teacher => { e with evaluations := m }
  | .selfEval => { e with selfEvaluations := m }

/-- Remove the binding of a goal from a map. -/
def eraseKey (goal : String) (m : List (String × String)) :
    List (String × String) :=
  m.filter fun p => !(p.1 == goal)

/-- Overwrite the binding of a goal in a map, or append it when absent. -/
def upsertKey (goal grade : String) (m : List (String × String)) :
    List (String × String) :=
  if m.any (fun p => p.1 == goal) then
    m.map fun p => if p.1 == goal then (p.1, grade) else p
  else m ++ [(goal, grade)]

/-- Modelled from the spec: recordEvaluation on an enrollment
(Enrollment.ts and the live enrollment route are not under src/; the
behaviour matches the deprecated route in part_000 lines 163-197). An empty
grade removes any record for the goal; a valid level is upserted; any other
grade fails with the validation error and no update happens. -/
def recordEvaluation (e : Enrollment) (goal grade : String)
    (kind : EvalKind) : Except String Enrollment :=
  if grade = "" then
    .ok (withMap e kind (eraseKey goal (mapOf e kind)))
  else if grade ∈ validGrades then
    .ok (withMap e kind (upsertKey goal grade (mapOf e kind)))
  else
    .error "Invalid grade. Must be MANA, MPA, or MA"

/-! ## Heap model for the getEnrollments copy (Class.ts lines 30-32)

getEnrollments returns a spread copy of the enrollment array.  To state the
aliasing content of claim C10 we model arrays as cells of a small heap: the
class owns one cell, and getEnrollments allocates a fresh cell holding a
copy of the contents and hands back its address. -/

/-- A heap of array cells, each holding an enrollment list. -/
abbrev Heap : Type := List (List Enrollment)

/-- Read the cell at an address (empty list for a dangling address). -/
def readCell (h : Heap) (i : Nat) : List Enrollment :=
  (List.get? h i).getD []

/-- Overwrite the cell at an address. -/
def writeCell (h : Heap) (i : Nat) (l : List Enrollment) : Heap :=
  List.set h i l

/-- getEnrollments from Class.ts lines 30-32: allocate a fresh cell holding
a copy of the class cell and return its address. -/
def getEnrollmentsOp (h : Heap) (classCell : Nat) : Heap × Nat :=
  (h ++ [readCell h classCell], List.length h)

/-- Specification-side discrepancy summary, phrased with counts as the claim
states it: a goal is considered when at least one side has a non-empty grade,
discrepant when moreover compareGoal holds; the percentage is the rounded
ratio (0 when nothing is considered) and highlight holds strictly above 25. -/
def discrepancySpec (goals : List String)
    (te se : List (String × String)) : DiscrepancyInfo :=
  let considered := goals.countP fun g =>
    decide (lookupGrade te g ≠ "" ∨ lookupGrade se g ≠ "")
  let discrepant := goals.countP fun g =>
    decide (lookupGrade te g ≠ "" ∨ lookupGrade se g ≠ "") &&
      compareGoal (lookupGrade te g) (lookupGrade se g)
  let percentage := if considered = 0 then 0 else round100 discrepant considered
  ⟨percentage, percentage > 25⟩

/-! ## Sample data for witnesses and counterexamples -/

/-- A sample student with an unformatted CPF. -/
def sAna : Student := { name := "Ana", cpf := "11122233344", email := "ana@mail.com" }

/-- A different student that shares the CPF of sAna. -/
def sBia : Student := { name := "Bia", cpf := "11122233344", email := "bia@mail.com" }

/-- A student with a CPF distinct from the one of sAna. -/
def sCarla : Student := { name := "Carla", cpf := "55566677788", email := "carla@mail.com" }

/-- A sample class holding one fresh enrollment of sAna. -/
def cSample : Class := { topic := "SE", semester := 1, year := 2024, enrollments := [mkEnrollment sAna] }

/-- A sample class whose single enrollment carries nonempty evaluation maps. -/
def cDesign : Class :=
  { topic := "SE", semester := 2, year := 2025,
    enrollments := [{ student := sAna,
                      evaluations := [("Design", "MA")],
                      selfEvaluations := [("Tests", "MPA")] }] }

/-- Case analysis on the grade hierarchy: a string is one of the three levels
with its rank, or outside the level set with no rank. -/
lemma hierarchy_cases (g : String) :
    (g = "MA" ∧ hierarchy g = some 3) ∨ (g = "MPA" ∧ hierarchy g = some 2) ∨
    (g = "MANA" ∧ hierarchy g = some 1) ∨
    (g ∉ gradeLevels ∧ hierarchy g = none) := by
  by_cases h1 : g = "MA"
  · subst h1; exact Or.inl ⟨rfl, rfl⟩
  · by_cases h2 : g = "MPA"
    · subst h2; exact Or.inr (Or.inl ⟨rfl, rfl⟩)
    · by_cases h3 : g = "MANA"
      · subst h3; exact Or.inr (Or.inr (Or.inl ⟨rfl, rfl⟩))
      · refine Or.inr (Or.inr (Or.inr ⟨?_, ?_⟩))
        · simp [gradeLevels, h1, h2, h3]
        · simp [hierarchy, h1, h2, h3]

/-- C1: compareGoal is true exactly when both grades are valid levels and the
teacher grade ranks strictly below the self grade in the order
MANA < MPA < MA; any other input (empty or invalid on either side) gives
false, and in particular equal grades are never flagged. -/
theorem compareGoal_rank_iff :
    (∀ t s : String, compareGoal t s = true ↔
      (t ∈ gradeLevels ∧ s ∈ gradeLevels ∧
        gradeLevels.indexOf t < gradeLevels.indexOf s))
    ∧ compareGoal "MA" "MA" = false := by
  refine ⟨fun t s => ?_, by decide⟩
  rcases hierarchy_cases t with ⟨ht, he⟩ | ⟨ht, he⟩ | ⟨ht, he⟩ | ⟨ht, he⟩ <;>
    rcases hierarchy_cases s with ⟨hs, hse⟩ | ⟨hs, hse⟩ | ⟨hs, hse⟩ | ⟨hs, hse⟩ <;>
    first
      | (subst ht; subst hs; decide)
      | (subst ht; simp [compareGoal, he, hse, hs])
      | (subst hs; simp [compareGoal, he, hse, ht])
      | simp [compareGoal, he, hse, ht, hs]

/-- The counting loop, started from any accumulator, adds the two counts the
claim describes: considered goals and considered-and-discrepant goals. -/
lemma foldl_discStep (te se : List (String × String)) :
    ∀ (goals : List String) (a b : Nat),
      goals.foldl (discStep te se) (a, b) =
        (a + goals.countP (fun g =>
            decide (lookupGrade te g ≠ "" ∨ lookupGrade se g ≠ "")),
         b + goals.countP (fun g =>
            decide (lookupGrade te g ≠ "" ∨ lookupGrade se g ≠ "") &&
              compareGoal (lookupGrade te g) (lookupGrade se g))) := by
  intro goals
  induction goals with
  | nil => intro a b; simp
  | cons g gs ih =>
    intro a b
    have hstep : discStep te se (a, b) g =
        if lookupGrade te g ≠ "" ∨ lookupGrade se g ≠ "" then
          (a + 1,
           if compareGoal (lookupGrade te g) (lookupGrade se g) then b + 1 else b)
        else (a, b) := rfl
    by_cases hc : lookupGrade te g ≠ "" ∨ lookupGrade se g ≠ ""
    · by_cases hd : compareGoal (lookupGrade te g) (lookupGrade se g) = true
      · rw [List.foldl_cons, hstep, if_pos hc, if_pos hd, ih]
        simp only [List.countP_cons, Prod.mk.injEq]
        constructor <;> (simp [hc, hd] <;> omega)
      · rw [List.foldl_cons, hstep, if_pos hc, if_neg hd, ih]
        simp only [List.countP_cons, Prod.mk.injEq]
        constructor <;> (simp [hc, hd] <;> omega)
    · rw [List.foldl_cons, hstep, if_neg hc, ih]
      push_neg at hc
      simp only [List.countP_cons, Prod.mk.injEq]
      constructor <;> simp [hc.1, hc.2]

/-- C2: getStudentDiscrepancyInfo computes exactly the summary the claim
describes (considered and discrepant counts, rounded percentage that is 0
when nothing is considered, highlight above 25), and in particular returns
33 percent with highlight on the worked example and 0 percent without
highlight on empty inputs. -/
theorem studentDiscrepancy_spec :
    (∀ (goals : List String) (te se : List (String × String)),
        getStudentDiscrepancyInfo goals te se = discrepancySpec goals te se)
    ∧ getStudentDiscrepancyInfo EVALUATION_GOALS
        [("Requirements", "MA"), ("Configuration Management", "MPA")]
        [("Requirements", "MA"), ("Configuration Management", "MA"),
         ("Project Management", "MANA")] = ⟨33, true⟩
    ∧ getStudentDiscrepancyInfo [] [] [] = ⟨0, false⟩ := by
  refine ⟨fun goals te se => ?_, by decide, by decide⟩
  unfold getStudentDiscrepancyInfo discrepancySpec discrepancyCounts
  rw [foldl_discStep te se goals 0 0]
  simp

/-- C9: with non-negative day, hour and minute inputs, at least one positive,
the scheduler displays now plus days times 24 hours plus hours plus minutes,
in milliseconds. -/
theorem scheduledTarget_spec :
    ∀ now d h m : Nat, 0 < d ∨ 0 < h ∨ 0 < m →
      scheduledTarget now d h m =
        some (now + (d * 86400000 + h * 3600000 + m * 60000)) := by
  intro now d h m hpos
  have h1 : totalMs d h m = d * 86400000 + h * 3600000 + m * 60000 := by
    unfold totalMs; ring
  have h2 : 0 < totalMs d h m := by rw [h1]; omega
  unfold scheduledTarget
  rw [if_pos h2, h1]

/-- Witness for C9 at one day, two hours, three minutes. -/
theorem scheduledTarget_spec_witness :
    scheduledTarget 0 1 2 3 =
      some (0 + (1 * 86400000 + 2 * 3600000 + 3 * 60000)) :=
  scheduledTarget_spec 0 1 2 3 (by decide)

/-! ## Class invariant and enrollment management -/

/-- A found enrollment carries the searched CPF verbatim. -/
lemma findEnrollment_some_cpf {c : Class} {cpf : String} {e : Enrollment}
    (h : findEnrollmentByStudentCPF c cpf = some e) : e.student.cpf = cpf := by
  have hp := List.find?_some h
  simpa using hp

/-- Absence of a CPF in the enrollment list makes the lookup miss. -/
lemma findEnrollment_eq_none {c : Class} {cpf : String}
    (h : ∀ e ∈ c.enrollments, e.student.cpf ≠ cpf) :
    findEnrollmentByStudentCPF c cpf = none := by
  unfold findEnrollmentByStudentCPF
  rw [List.find?_eq_none]
  intro e he
  simpa using h e he

/-- C3 counterexample: the Class constructor accepts an enrollment list that
already enrolls the same student twice, so construction alone does not
establish the one-enrollment-per-CPF invariant. -/
theorem class_ctor_unique_cpf_cex :
    ¬ uniqueCPFs (Class.mk "SE" 1 2024
        [mkEnrollment sAna, mkEnrollment sAna]).enrollments := by
  decide

/-- The CPFs produced by the fromJSON enrollment loop are exactly the CPFs
listed in the JSON data. -/
lemma buildEnrollments_cpfs (students : List Student) :
    ∀ (eds : List EnrollmentJSON) (enrs : List Enrollment),
      buildEnrollments students eds = .ok enrs →
        (enrs.map fun e => e.student.cpf) =
          (eds.map fun ed => ed.student.cpf) := by
  intro eds
  induction eds with
  | nil =>
    intro enrs h
    simp only [buildEnrollments] at h
    cases h
    rfl
  | cons ed rest ih =>
    intro enrs h
    simp only [buildEnrollments] at h
    cases hfind : students.find? (fun s => s.cpf == ed.student.cpf) with
    | none => rw [hfind] at h; cases h
    | some s =>
      rw [hfind] at h
      cases hb : buildEnrollments students rest with
      | error msg => rw [hb] at h; cases h
      | ok rest' =>
        rw [hb] at h
        cases h
        have hcpf : s.cpf = ed.student.cpf := by
          simpa using List.find?_some hfind
        simp [Enrollment.fromJSON, hcpf, ih rest' hb]

/-- C3 amended: addEnrollment and removeEnrollment preserve the invariant
that a class holds at most one enrollment per student CPF, and the
constructor and fromJSON establish it exactly when the supplied enrollment
list, respectively the JSON enrollment array, has pairwise distinct CPFs. -/
theorem unique_cpf_preservation :
    (∀ (topic : String) (sem yr : Int) (l : List Enrollment),
        uniqueCPFs l → uniqueCPFs (Class.mk topic sem yr l).enrollments)
    ∧ (∀ (c : Class) (s : Student) (c' : Class) (e : Enrollment),
        uniqueCPFs c.enrollments → addEnrollment c s = .ok (c', e) →
          uniqueCPFs c'.enrollments)
    ∧ (∀ (c : Class) (cpf : String),
        uniqueCPFs c.enrollments →
          uniqueCPFs (removeEnrollment c cpf).2.enrollments)
    ∧ (∀ (data : ClassJSON) (students : List Student) (c : Class),
        (data.enrollments.map fun ed => ed.student.cpf).Nodup →
        Class.fromJSON data students = .ok c →
          uniqueCPFs c.enrollments) := by
  refine ⟨fun _ _ _ _ h => h, ?_, ?_, ?_⟩
  · intro c s c' e hu hok
    unfold addEnrollment at hok
    cases hfind : findEnrollmentByStudentCPF c s.cpf with
    | some e0 => rw [hfind] at hok; cases hok
    | none =>
      rw [hfind] at hok
      cases hok
      have hnotin : s.cpf ∉ c.enrollments.map fun e => e.student.cpf := by
        intro hmem
        rcases List.mem_map.mp hmem with ⟨e1, he1, hcpf⟩
        unfold findEnrollmentByStudentCPF at hfind
        rw [List.find?_eq_none] at hfind
        exact absurd (by simpa using hcpf) (hfind e1 he1)
      unfold uniqueCPFs at hu ⊢
      simp only [List.map_append, List.map_cons, List.map_nil]
      rw [List.nodup_append]
      exact ⟨hu, List.nodup_singleton _, by
        intro a ha hb
        simp only [mkEnrollment, List.mem_singleton] at hb
        subst hb
        exact hnotin ha⟩
  · intro c cpf hu
    unfold removeEnrollment
    cases hidx : c.enrollments.findIdx? (fun e => e.student.cpf == cpf) with
    | none => exact hu
    | some i =>
      unfold uniqueCPFs at hu ⊢
      exact ((List.eraseIdx_sublist c.enrollments i).map _).nodup hu
  · intro data students c hnd hok
    unfold Class.fromJSON at hok
    cases hb : buildEnrollments students data.enrollments with
    | error msg => rw [hb] at hok; cases hok
    | ok enrs =>
      rw [hb] at hok
      cases hok
      unfold uniqueCPFs
      rw [buildEnrollments_cpfs students data.enrollments enrs hb]
      exact hnd

/-- Witness for the amended C3 at concrete classes: the invariant holds
after construction from a duplicate-free list, after a successful
addEnrollment, after removeEnrollment, and after fromJSON of
duplicate-free data. -/
theorem unique_cpf_preservation_witness :
    uniqueCPFs (Class.mk "SE" 1 2024 [mkEnrollment sAna]).enrollments
    ∧ uniqueCPFs (Class.mk "SE" 1 2024
        [mkEnrollment sAna, mkEnrollment sCarla] : Class).enrollments
    ∧ uniqueCPFs (removeEnrollment cSample "11122233344").2.enrollments
    ∧ uniqueCPFs cSample.enrollments :=
  ⟨unique_cpf_preservation.1 "SE" 1 2024 [mkEnrollment sAna] (by decide),
   unique_cpf_preservation.2.1 cSample sCarla
     (Class.mk "SE" 1 2024 [mkEnrollment sAna, mkEnrollment sCarla])
     (mkEnrollment sCarla) (by decide) rfl,
   unique_cpf_preservation.2.2.1 cSample "11122233344" (by decide),
   unique_cpf_preservation.2.2.2 (Class.toJSON cSample) [sAna] cSample
     (by decide) rfl⟩

/-- C4: addEnrollment fails with the duplicate-enrollment error exactly when
the student CPF is already enrolled; otherwise it appends one fresh
enrollment with empty maps at the end of the list, keeping every earlier
enrollment in place, and returns it. -/
theorem addEnrollment_spec :
    (∀ (c : Class) (s : Student),
        (∃ e ∈ c.enrollments, e.student.cpf = s.cpf) →
          addEnrollment c s =
            .error "Student is already enrolled in this class")
    ∧ (∀ (c : Class) (s : Student),
        (∀ e ∈ c.enrollments, e.student.cpf ≠ s.cpf) →
          addEnrollment c s =
            .ok ({ c with enrollments := c.enrollments ++ [mkEnrollment s] },
                 mkEnrollment s)) := by
  constructor
  · intro c s ⟨e, he, hcpf⟩
    unfold addEnrollment
    cases hfind : findEnrollmentByStudentCPF c s.cpf with
    | some e0 => rfl
    | none =>
      unfold findEnrollmentByStudentCPF at hfind
      rw [List.find?_eq_none] at hfind
      exact absurd (by simpa using hcpf) (hfind e he)
  · intro c s hall
    unfold addEnrollment
    rw [findEnrollment_eq_none hall]

/-- Witness for C4: re-enrolling sAna in the sample class fails with the
duplicate error, and enrolling sCarla appends her fresh enrollment. -/
theorem addEnrollment_spec_witness :
    addEnrollment cSample sAna =
      .error "Student is already enrolled in this class"
    ∧ addEnrollment cSample sCarla =
        .ok ({ cSample with
                enrollments := cSample.enrollments ++ [mkEnrollment sCarla] },
             mkEnrollment sCarla) :=
  ⟨addEnrollment_spec.1 cSample sAna ⟨mkEnrollment sAna, by decide, rfl⟩,
   addEnrollment_spec.2 cSample sCarla (by decide)⟩

/-- Splicing out the index found by findIdx? removes the first element
satisfying the predicate. -/
lemma eraseIdx_findIdx? {α : Type} (p : α → Bool) :
    ∀ (l : List α) (i : Nat), l.findIdx? p = some i → l.eraseIdx i = l.eraseP p := by
  intro l
  induction l with
  | nil => intro i h; simp at h
  | cons x xs ih =>
    intro i h
    rw [List.findIdx?_cons] at h
    by_cases hp : p x
    · rw [if_pos hp] at h
      cases h
      rw [List.eraseIdx_cons_zero, List.eraseP_cons_of_pos hp]
    · rw [if_neg hp, List.findIdx?_succ] at h
      rcases Option.map_eq_some'.mp h with ⟨j, hj, hij⟩
      subst hij
      rw [List.eraseIdx_cons_succ, List.eraseP_cons_of_neg hp, ih j hj]

/-- removeEnrollment, expressed through any and eraseP: when some enrollment
matches, the first match is spliced out and true is returned; otherwise the
class is untouched and false is returned. -/
lemma removeEnrollment_eq (c : Class) (cpf : String) :
    removeEnrollment c cpf =
      if c.enrollments.any (fun e => e.student.cpf == cpf) then
        (true, { c with enrollments :=
                   c.enrollments.eraseP fun e => e.student.cpf == cpf })
      else (false, c) := by
  cases hidx : c.enrollments.findIdx? (fun e => e.student.cpf == cpf) with
  | none =>
    have h1 : removeEnrollment c cpf = (false, c) := by
      unfold removeEnrollment
      rw [hidx]
    have hany : c.enrollments.any (fun e => e.student.cpf == cpf) = false := by
      rw [List.any_eq_false]
      exact fun e he hp => by
        have := List.findIdx?_eq_none_iff.mp hidx e he
        simp_all
    rw [h1, if_neg (by simp [hany])]
  | some i =>
    have h1 : removeEnrollment c cpf =
        (true, { c with enrollments := c.enrollments.eraseIdx i }) := by
      unfold removeEnrollment
      rw [hidx]
    have hany : c.enrollments.any (fun e => e.student.cpf == cpf) = true := by
      have h2 := @List.findIdx?_isSome Enrollment c.enrollments
        (fun e => e.student.cpf == cpf)
      rw [hidx] at h2
      simpa using h2.symm
    rw [h1, if_pos hany, eraseIdx_findIdx? _ _ _ hidx]

/-- After erasing the first CPF match from a duplicate-free enrollment list,
no match is left. -/
lemma no_match_after_eraseP (cpf : String) :
    ∀ (l : List Enrollment), (l.map fun e => e.student.cpf).Nodup →
      (l.eraseP (fun e => e.student.cpf == cpf)).any
        (fun e => e.student.cpf == cpf) = false := by
  intro l
  induction l with
  | nil => intro _; rfl
  | cons e rest ih =>
    intro hnd
    rw [List.map_cons, List.nodup_cons] at hnd
    by_cases hp : (e.student.cpf == cpf) = true
    · rw [List.eraseP_cons_of_pos (p := fun x : Enrollment => x.student.cpf == cpf) hp,
        List.any_eq_false]
      intro e' he' hp'
      have hcpf : e.student.cpf = e'.student.cpf := by
        have h1 : e.student.cpf = cpf := by simpa using hp
        have h2 : e'.student.cpf = cpf := by simpa using hp'
        rw [h1, h2]
      exact hnd.1 (hcpf ▸ List.mem_map_of_mem (fun e => e.student.cpf) he')
    · rw [List.eraseP_cons_of_neg (p := fun x : Enrollment => x.student.cpf == cpf) hp,
        List.any_cons]
      simp only [hp, Bool.false_or]
      exact ih hnd.2

/-- C8: removeEnrollment returns false and keeps the class untouched when no
enrollment matches the CPF; when one matches it returns true and splices out
the first matching enrollment; and on a class satisfying the
one-enrollment-per-CPF invariant, repeating the call right after a removal
returns false. -/
theorem removeEnrollment_spec :
    (∀ (c : Class) (cpf : String),
        (∀ e ∈ c.enrollments, e.student.cpf ≠ cpf) →
          removeEnrollment c cpf = (false, c))
    ∧ (∀ (c : Class) (cpf : String),
        (∃ e ∈ c.enrollments, e.student.cpf = cpf) →
          (removeEnrollment c cpf).1 = true ∧
          (removeEnrollment c cpf).2.enrollments =
            c.enrollments.eraseP fun e => e.student.cpf == cpf)
    ∧ (∀ (c : Class) (cpf : String),
        uniqueCPFs c.enrollments →
          (removeEnrollment ((removeEnrollment c cpf).2) cpf).1 = false) := by
  refine ⟨?_, ?_, ?_⟩
  · intro c cpf hall
    have hany : c.enrollments.any (fun e => e.student.cpf == cpf) = false := by
      rw [List.any_eq_false]
      intro e he hp
      exact hall e he (by simpa using hp)
    rw [removeEnrollment_eq, if_neg (by simp [hany])]
  · intro c cpf h
    obtain ⟨e, he, hcpf⟩ := h
    have hany : c.enrollments.any (fun e => e.student.cpf == cpf) = true := by
      rw [List.any_eq_true]
      exact ⟨e, he, by simpa using hcpf⟩
    rw [removeEnrollment_eq, if_pos hany]
    exact ⟨rfl, rfl⟩
  · intro c cpf hu
    by_cases hany : c.enrollments.any (fun e => e.student.cpf == cpf) = true
    · have h1 : (removeEnrollment c cpf).2.enrollments =
          c.enrollments.eraseP fun e => e.student.cpf == cpf := by
        rw [removeEnrollment_eq, if_pos hany]
      have hany2 : ((removeEnrollment c cpf).2.enrollments.any
          fun e => e.student.cpf == cpf) = false := by
        rw [h1]
        exact no_match_after_eraseP cpf c.enrollments hu
      rw [removeEnrollment_eq, if_neg (by simp [hany2])]
    · have h1 : removeEnrollment c cpf = (false, c) := by
        rw [removeEnrollment_eq, if_neg hany]
      simp [h1]

/-- Witness for C8 on the sample class: removing an absent CPF is a no-op
signalled by false, removing the enrolled CPF reports true, and repeating
the removal reports false. -/
theorem removeEnrollment_spec_witness :
    removeEnrollment cSample "99988877766" = (false, cSample)
    ∧ (removeEnrollment cSample "11122233344").1 = true
    ∧ (removeEnrollment ((removeEnrollment cSample "11122233344").2)
        "11122233344").1 = false :=
  ⟨removeEnrollment_spec.1 cSample "99988877766" (by decide),
   (removeEnrollment_spec.2.1 cSample "11122233344"
      ⟨mkEnrollment sAna, by decide, rfl⟩).1,
   removeEnrollment_spec.2.2 cSample "11122233344" (by decide)⟩

/-- C5: recordEvaluation with a grade outside the three levels and the empty
sentinel fails with the validation error; no updated enrollment is produced,
so the evaluation maps are unchanged. -/
theorem recordEvaluation_invalid_grade :
    ∀ (e : Enrollment) (goal grade : String) (kind : EvalKind),
      grade ∉ ["MANA", "MPA", "MA", ""] →
        recordEvaluation e goal grade kind =
          .error "Invalid grade. Must be MANA, MPA, or MA" := by
  intro e goal grade kind h
  simp only [List.mem_cons, List.not_mem_nil, or_false, not_or] at h
  obtain ⟨h1, h2, h3, h4⟩ := h
  unfold recordEvaluation
  rw [if_neg h4, if_neg (by simp [validGrades, h1, h2, h3])]

/-- Witness for C5: grade X on the Design goal is rejected. -/
theorem recordEvaluation_invalid_grade_witness :
    recordEvaluation (mkEnrollment sAna) "Design" "X" EvalKind.teacher =
      .error "Invalid grade. Must be MANA, MPA, or MA" :=
  recordEvaluation_invalid_grade (mkEnrollment sAna) "Design" "X"
    EvalKind.teacher (by decide)

/-! ## CPF normalization (C6) -/

/-- cleanCPF strips dots and dashes more than once with no further
effect. -/
lemma cleanCPF_idem (s : String) : cleanCPF (cleanCPF s) = cleanCPF s := by
  unfold cleanCPF
  simp [List.filter_filter]

/-- C6 counterexample: the sample class stores the stripped CPF, the
formatted CPF cleans to the stripped one, yet the enrollment lookup misses
on the formatted CPF while it hits on the stripped form: the enrollment
lookup does not normalize. -/
theorem findEnrollment_formatted_cpf_cex :
    cleanCPF "111.222.333-44" = "11122233344"
    ∧ findEnrollmentByStudentCPF cSample "111.222.333-44" = none
    ∧ findEnrollmentByStudentCPF cSample "11122233344" =
        some (mkEnrollment sAna) := by
  refine ⟨by decide, by decide, by decide⟩

/-- C6 amended: lookups routed through cleanCPF (the GET and DELETE student
routes) are insensitive to CPF formatting, and applying them to an already
clean CPF changes nothing; the enrollment lookup
findEnrollmentByStudentCPF instead matches the stored CPF verbatim, so it
identifies formatted and stripped forms only when the caller normalizes. -/
theorem cpf_normalization_spec :
    (∀ (store : List Student) (cpf1 cpf2 : String),
        cleanCPF cpf1 = cleanCPF cpf2 →
          getStudentByCpfRoute store cpf1 = getStudentByCpfRoute store cpf2)
    ∧ (∀ (store : List Student) (cpf : String),
        getStudentByCpfRoute store cpf =
          getStudentByCpfRoute store (cleanCPF cpf))
    ∧ (∀ (c : Class) (cpf : String) (e : Enrollment),
        findEnrollmentByStudentCPF c cpf = some e → e.student.cpf = cpf) := by
  refine ⟨?_, ?_, ?_⟩
  · intro store cpf1 cpf2 h
    unfold getStudentByCpfRoute
    rw [h]
  · intro store cpf
    unfold getStudentByCpfRoute
    rw [cleanCPF_idem]
  · intro c cpf e h
    exact findEnrollment_some_cpf h

/-- Witness for the amended C6: the formatted and the stripped CPF reach the
same student through the cleaning route. -/
theorem cpf_normalization_spec_witness :
    getStudentByCpfRoute [sAna] "111.222.333-44" =
      getStudentByCpfRoute [sAna] "11122233344"
    ∧ (mkEnrollment sAna).student.cpf = "11122233344" :=
  ⟨cpf_normalization_spec.1 [sAna] "111.222.333-44" "11122233344" (by decide),
   cpf_normalization_spec.2.2 cSample "11122233344" (mkEnrollment sAna)
     (by decide)⟩

/-! ## JSON round-trip (C7) -/

/-- Rebuilding a serialized enrollment list succeeds and returns the
original enrollments, provided the student list resolves every enrolled
CPF to exactly the enrolled student. -/
lemma buildEnrollments_roundtrip (students : List Student) :
    ∀ (enrs : List Enrollment),
      (∀ e ∈ enrs, e.student ∈ students) →
      (∀ e ∈ enrs, ∀ s ∈ students, s.cpf = e.student.cpf → s = e.student) →
      buildEnrollments students (enrs.map Enrollment.toJSON) = .ok enrs := by
  intro enrs
  induction enrs with
  | nil => intro _ _; rfl
  | cons e rest ih =>
    intro h1 h2
    rw [List.map_cons]
    have hcpf : (Enrollment.toJSON e).student.cpf = e.student.cpf := rfl
    cases hfind : students.find?
        (fun s => s.cpf == (Enrollment.toJSON e).student.cpf) with
    | none =>
      rw [List.find?_eq_none] at hfind
      have := hfind e.student (h1 e (List.mem_cons_self e rest))
      simp [hcpf] at this
    | some s =>
      have hs : s = e.student := by
        have hmem := List.mem_of_find?_eq_some hfind
        have hp := List.find?_some hfind
        rw [hcpf] at hp
        exact h2 e (List.mem_cons_self e rest) s hmem (by simpa using hp)
      have hrest : buildEnrollments students (rest.map Enrollment.toJSON) =
          .ok rest :=
        ih (fun e' he' => h1 e' (List.mem_cons_of_mem e he'))
          (fun e' he' => h2 e' (List.mem_cons_of_mem e he'))
      show (match students.find?
          (fun s => s.cpf == (Enrollment.toJSON e).student.cpf) with
        | none => Except.error
            ("Student with CPF " ++ (Enrollment.toJSON e).student.cpf ++
              " not found")
        | some s => (buildEnrollments students (rest.map Enrollment.toJSON)).map
            fun enrs => Enrollment.fromJSON (Enrollment.toJSON e) s :: enrs) =
        .ok (e :: rest)
      rw [hfind, hrest, hs]
      rfl

/-- C7 amended: serializing a Class and rebuilding it from any student list
that resolves every enrolled CPF to exactly the enrolled student gives back
the very same Class, enrollments and evaluation maps included. -/
theorem class_json_roundtrip :
    ∀ (c : Class) (students : List Student),
      (∀ e ∈ c.enrollments, e.student ∈ students) →
      (∀ e ∈ c.enrollments, ∀ s ∈ students, s.cpf = e.student.cpf →
          s = e.student) →
      Class.fromJSON (Class.toJSON c) students = .ok c := by
  intro c students h1 h2
  unfold Class.fromJSON
  have henr : (Class.toJSON c).enrollments =
      c.enrollments.map Enrollment.toJSON := rfl
  rw [henr, buildEnrollments_roundtrip students c.enrollments h1 h2]
  rfl

/-- Witness for the amended C7 on the sample class with nonempty maps. -/
theorem class_json_roundtrip_witness :
    Class.fromJSON (Class.toJSON cDesign) [sAna, sCarla] = .ok cDesign :=
  class_json_roundtrip cDesign [sAna, sCarla] (by decide) (by decide)

/-- C7 counterexample: the student list contains the enrolled student sAna,
but also sBia, a different student sharing the CPF and listed first;
fromJSON resolves the CPF to the first match, so the round trip yields an
enrollment set differing from the original one. -/
theorem class_json_roundtrip_cex :
    sAna ∈ [sBia, sAna]
    ∧ Class.fromJSON (Class.toJSON cDesign) [sBia, sAna] =
        .ok { topic := "SE", semester := 2, year := 2025,
              enrollments := [{ student := sBia,
                                evaluations := [("Design", "MA")],
                                selfEvaluations := [("Tests", "MPA")] }] }
    ∧ ({ topic := "SE", semester := 2, year := 2025,
         enrollments := [{ student := sBia,
                           evaluations := [("Design", "MA")],
                           selfEvaluations := [("Tests", "MPA")] }] } : Class)
        ≠ cDesign := by
  refine ⟨by decide, rfl, by decide⟩

/-! ## getEnrollments returns a copy (C10) -/

/-- C10: getEnrollments hands back a fresh cell whose contents equal the
class cell, and overwriting that fresh cell with any modification of its
contents leaves the class cell unchanged. -/
theorem getEnrollments_copy_frame :
    ∀ (h : Heap) (i : Nat) (f : List Enrollment → List Enrollment),
      i < List.length h →
        readCell (getEnrollmentsOp h i).1 (getEnrollmentsOp h i).2 =
          readCell h i
        ∧ readCell
            (writeCell (getEnrollmentsOp h i).1 (getEnrollmentsOp h i).2
              (f (readCell (getEnrollmentsOp h i).1 (getEnrollmentsOp h i).2)))
            i = readCell h i := by
  intro h i f hlt
  have hcopy : readCell (getEnrollmentsOp h i).1 (getEnrollmentsOp h i).2 =
      readCell h i := by
    unfold getEnrollmentsOp readCell
    simp only [List.get?_eq_getElem?]
    rw [List.getElem?_concat_length]
    rfl
  refine ⟨hcopy, ?_⟩
  unfold getEnrollmentsOp writeCell readCell
  simp only [List.get?_eq_getElem?]
  rw [List.getElem?_set_ne (Nat.ne_of_gt hlt), List.getElem?_append_left hlt]

/-- Witness for C10: pushing an extra enrollment onto the copied array does
not change the class cell. -/
theorem getEnrollments_copy_frame_witness :
    readCell (getEnrollmentsOp [[mkEnrollment sAna]] 0).1
        (getEnrollmentsOp [[mkEnrollment sAna]] 0).2 =
      readCell [[mkEnrollment sAna]] 0
    ∧ readCell
        (writeCell (getEnrollmentsOp [[mkEnrollment sAna]] 0).1
          (getEnrollmentsOp [[mkEnrollment sAna]] 0).2
          ((fun l => l ++ [mkEnrollment sCarla])
            (readCell (getEnrollmentsOp [[mkEnrollment sAna]] 0).1
              (getEnrollmentsOp [[mkEnrollment sAna]] 0).2)))
        0 = readCell [[mkEnrollment sAna]] 0 :=
  getEnrollments_copy_frame [[mkEnrollment sAna]] 0
    (fun l => l ++ [mkEnrollment sCarla]) (by decide)

end TeachingAssistant
